import Mathlib

/-!
Verification development for the banking ETL repository.

The repository is a three-stage SQLite pipeline:
  * `scripts/csv_importer.py`  — intake: CSV files into `raw*` tables;
  * `scripts/raw_to_stg.py`    — reconciliation: `raw*` into deduplicated `stg*` tables;
  * `scripts/stg_to_rpt.py`    — aggregation: `stg*` into rebuilt `rpt*` tables.

This file shallowly embeds the data model and the operations of those
scripts and proves or refutes the specified properties against them.
SQL tables are embedded as Lists of rows, SQL NULL as `Option.none`, and
the semantics of the generated SQL statements (three-valued `=`,
NULL-safe `IS`, `SELECT DISTINCT`, `NOT EXISTS` evaluated against the
pre-statement contents of the target table, `GROUP BY`) follow the
documented and experimentally confirmed behaviour of SQLite.
-/

namespace ETL

/-- An SQL cell value: `none` embeds SQL NULL.  The pipeline stores text,
so non-NULL values are strings. -/
abbrev Value := Option String

/-- A table row: an association list from column name to cell value.
Rows produced by the pipeline always carry exactly the data columns of
their table. -/
structure Row where
  cells : List (String × Value)
deriving DecidableEq, Repr

/-- Column access, as the generated SQL references `alias."col"`.
A column absent from the row reads as NULL. -/
def Row.get (r : Row) (c : String) : Value :=
  match r.cells.lookup c with
  | some v => v
  | none => none

/-- SQL three-valued equality `a = b`, collapsed to "is the comparison
TRUE": NULL compared with anything (including NULL) is not TRUE. -/
def sqlEq (a b : Value) : Bool :=
  match a, b with
  | some x, some y => x == y
  | _, _ => false

/-- SQLite NULL-safe comparison `a IS b`: NULL matches NULL. -/
def sqlIs (a b : Value) : Bool := a == b

/-- The key test generated by `move_data_to_stg` in keyed mode:
`stg."k" = raw."k"` conjoined over all key columns. -/
def keyMatch (keys : List String) (s r : Row) : Bool :=
  keys.all fun k => sqlEq (s.get k) (r.get k)

/-- The full-row test the unkeyed branch of `move_data_to_stg` intends:
`stg."c" IS raw."c"` conjoined over all data columns. -/
def fullRowMatch (cols : List String) (s r : Row) : Bool :=
  cols.all fun c => sqlIs (s.get c) (r.get c)

/-- The spec's row-identity test for a keyed entity: two rows agree on
the key when every key column carries exactly the same value — exact
value equality, under which a NULL agrees with a NULL.  This is the
notion "agree on every column of K" of the no-duplication invariant; it
differs from the SQL `=` test `keyMatch` the reconciliation query
actually runs, which never matches a NULL. -/
def keyAgree (keys : List String) (a b : Row) : Bool :=
  keys.all fun k => sqlIs (a.get k) (b.get k)

/-- Projection of a row onto a column list, as the `SELECT {col_list}`
clause projects each raw row onto the data columns before insertion. -/
def projectRow (cols : List String) (r : Row) : Row :=
  ⟨cols.map fun c => (c, r.get c)⟩

/-- First-occurrence deduplication with an accumulator of already-seen
elements; `distinct` embeds `SELECT DISTINCT` (and Python `set`
construction) keeping the first occurrence of each element. -/
def distinctAux [DecidableEq α] (seen : List α) : List α → List α
  | [] => []
  | x :: xs => if x ∈ seen then distinctAux seen xs else x :: distinctAux (x :: seen) xs

/-- `SELECT DISTINCT` over a list: keep the first occurrence of each
element. -/
def distinct [DecidableEq α] (l : List α) : List α := distinctAux [] l

theorem mem_distinctAux [DecidableEq α] {a : α} :
    ∀ (l seen : List α), a ∈ l → a ∉ seen → a ∈ distinctAux seen l
  | [], _, h, _ => absurd h (List.not_mem_nil a)
  | x :: xs, seen, h, hs => by
    rcases List.mem_cons.mp h with rfl | hxs
    · by_cases hx : a ∈ seen
      · exact absurd hx hs
      · simp [distinctAux, hx]
    · by_cases hx : x ∈ seen
      · simpa [distinctAux, hx] using mem_distinctAux xs seen hxs hs
      · by_cases hax : a = x
        · subst hax; simp [distinctAux, hx]
        · have : a ∈ distinctAux (x :: seen) xs :=
            mem_distinctAux xs (x :: seen) hxs (by
              intro hc
              rcases List.mem_cons.mp hc with h1 | h2
              · exact hax h1
              · exact hs h2)
          simp [distinctAux, hx, this]

theorem mem_distinct [DecidableEq α] {a : α} {l : List α} (h : a ∈ l) :
    a ∈ distinct l :=
  mem_distinctAux l [] h (List.not_mem_nil a)

theorem distinctAux_sublist [DecidableEq α] :
    ∀ (l seen : List α), (distinctAux seen l).Sublist l
  | [], _ => by simp [distinctAux]
  | x :: xs, seen => by
    by_cases hx : x ∈ seen
    · simp only [distinctAux, if_pos hx]
      exact (distinctAux_sublist xs seen).cons x
    · simp only [distinctAux, if_neg hx]
      exact (distinctAux_sublist xs (x :: seen)).cons₂ x

theorem distinct_sublist [DecidableEq α] (l : List α) :
    (distinct l).Sublist l :=
  distinctAux_sublist l []

theorem not_mem_seen_of_mem_distinctAux [DecidableEq α] {a : α} :
    ∀ (l seen : List α), a ∈ distinctAux seen l → a ∉ seen
  | [], _, h => by simp [distinctAux] at h
  | x :: xs, seen, h => by
    by_cases hx : x ∈ seen
    · rw [distinctAux, if_pos hx] at h
      exact not_mem_seen_of_mem_distinctAux xs seen h
    · rw [distinctAux, if_neg hx] at h
      rcases List.mem_cons.mp h with rfl | h2
      · exact hx
      · intro hc
        exact not_mem_seen_of_mem_distinctAux xs (x :: seen) h2 (List.mem_cons_of_mem x hc)

theorem distinctAux_pairwise_ne [DecidableEq α] :
    ∀ (l seen : List α), (distinctAux seen l).Pairwise (· ≠ ·)
  | [], _ => by simp [distinctAux]
  | x :: xs, seen => by
    by_cases hx : x ∈ seen
    · rw [distinctAux, if_pos hx]
      exact distinctAux_pairwise_ne xs seen
    · rw [distinctAux, if_neg hx]
      refine List.Pairwise.cons ?_ (distinctAux_pairwise_ne xs (x :: seen))
      intro b hb hxb
      exact not_mem_seen_of_mem_distinctAux xs (x :: seen) hb (hxb ▸ List.mem_cons_self x seen)

theorem distinct_pairwise_ne [DecidableEq α] (l : List α) :
    (distinct l).Pairwise (· ≠ ·) :=
  distinctAux_pairwise_ne l []

/-- Looking a column up in a projected row returns the original row's
value, provided the column is among the projected columns. -/
theorem get_projectRow {cols : List String} {c : String} (r : Row) (h : c ∈ cols) :
    (projectRow cols r).get c = r.get c := by
  induction cols with
  | nil => exact absurd h (List.not_mem_nil c)
  | cons d ds ih =>
    by_cases hdc : d = c
    · subst hdc
      simp [projectRow, Row.get, List.lookup]
    · rcases List.mem_cons.mp h with rfl | hds
      · exact absurd rfl hdc
      · have hbeq : (c == d) = false := beq_eq_false_iff_ne.mpr (Ne.symm hdc)
        simpa [projectRow, Row.get, List.lookup, hbeq] using ih hds

/-! ### Reconciliation engine: `scripts/raw_to_stg.py` -/

/-- Python `str.startswith`, embedded character-wise. -/
def pyStartsWith (s pre : String) : Bool := pre.data.isPrefixOf s.data

/-- Python slicing `s[n:]`, embedded character-wise. -/
def pyDrop (s : String) (n : Nat) : String := ⟨s.data.drop n⟩

/-- `raw_to_stg_name`: raw table name to staging table name
(`rawCustomerProfiles` -> `stgCustomerProfiles`). -/
def raw_to_stg_name (s : String) : String :=
  if pyStartsWith s "raw" then "stg" ++ pyDrop s 3 else "stg" ++ s

/-- `get_base_table_name`: raw table name to base name used for the key
lookup (`rawCustomerProfiles` -> `CustomerProfiles`). -/
def get_base_table_name (s : String) : String :=
  if pyStartsWith s "raw" then pyDrop s 3 else s

/-- `get_key_columns`: look the base name up in the table-keys
configuration; `none` when the table is not configured. -/
def get_key_columns (base : String) (keysConfig : List (String × List String)) :
    Option (List String) :=
  keysConfig.lookup base

/-- The statistics dict returned by `move_data_to_stg`. -/
structure MoveStats where
  rows_inserted : Nat
  stg_before : Nat
  stg_after : Nat
deriving DecidableEq, Repr

/-- The row set inserted by the keyed branch of `move_data_to_stg`:
`INSERT INTO stg SELECT DISTINCT {data cols} FROM raw WHERE NOT EXISTS
(SELECT 1 FROM stg WHERE stg."k" = raw."k" AND ...)`.  SQLite evaluates
the `NOT EXISTS` subquery against the pre-statement contents of the
staging table (the SELECT is materialised before insertion because the
target table occurs in it), so the filter uses `stg` as it was when the
statement started. -/
def keyedCandidates (stg raw : List Row) (keys cols : List String) : List Row :=
  distinct ((raw.filter fun r => !(stg.any fun s => keyMatch keys s r)).map (projectRow cols))

/-- `move_data_to_stg`.  In keyed mode (Python truthiness: a non-empty
key-column list) the keyed insert runs and the statistics are derived
from row counts before and after, exactly as the script recomputes
them.  In unkeyed mode the generated SQL is
`... FROM [raw_table] WHERE NOT EXISTS (SELECT 1 FROM [stg_table] stg
WHERE stg."c" IS raw."c" AND ...)`: the outer FROM clause carries no
`raw` alias (unlike the keyed branch, which writes `FROM [...] raw`), so
SQLite rejects the qualified references and raises
`OperationalError: no such column: raw.<first data column>`; the
statement inserts nothing.  The error is embedded as `Except.error`
carrying that message. -/
def move_data_to_stg (stg raw : List Row) (key_columns : Option (List String))
    (data_columns : List String) : Except String (List Row × MoveStats) :=
  match key_columns with
  | some (k :: ks) =>
    let moved := keyedCandidates stg raw (k :: ks) data_columns
    let stg_after := stg ++ moved
    .ok (stg_after, ⟨stg_after.length - stg.length, stg.length, stg_after.length⟩)
  | _ => .error ("no such column: raw." ++ data_columns.headD "")

/-- One `_etl_log` audit record, as assembled by the scripts before the
final insert loop (wall-clock timestamp fields are omitted; no claim
refers to them). -/
structure LogEntry where
  operation : String
  table_name : String
  rows_affected : Nat
  status : String
  message : String
deriving DecidableEq, Repr

/-- The environment `process_single_table` works in, abstracting the
database reads it performs: the raw table's rows and non-metadata
columns, whether the staging table already exists and its rows, and the
configured key columns for the base name. -/
structure StgEnv where
  raw_table_name : String
  raw_rows : List Row
  stg_exists : Bool
  stg_rows : List Row
  data_columns : List String
  key_columns : Option (List String)

/-- The result dict of `process_single_table`, extended with the staging
table contents after the call and the audit-log entries the call
appended. -/
structure StgResult where
  raw_table : String
  stg_table : String
  success : Bool
  rows_inserted : Nat
  message : String
  stg : List Row
  log : List LogEntry
deriving DecidableEq, Repr

/-- Comma-separated rendering of list items. -/
def renderItems : List String → String
  | [] => ""
  | [x] => x
  | x :: y :: rest => x ++ ", " ++ renderItems (y :: rest)

/-- Rendering of a Python list of strings inside an f-string message
(quotation marks elided). -/
def renderList (l : List String) : String :=
  "[" ++ renderItems l ++ "]"

/-- The message `process_single_table` produces when declared key
columns are absent from the raw table's data columns. -/
def keyColumnsNotFoundMessage (missing : List String) : String :=
  "Key columns not found: " ++ renderList missing

/-- The staging contents `process_single_table` starts from: the
existing staging rows, or an empty freshly created staging table. -/
def stgBefore (env : StgEnv) : List Row :=
  if env.stg_exists then env.stg_rows else []

/-- The `move_data_to_stg` call inside `process_single_table`: on
success the result records the inserted count and one audit entry; on
an error the staging table is unchanged, no audit entry is appended and
the exception text becomes the message. -/
def runMoveTable (env : StgEnv) : StgResult :=
  match move_data_to_stg (stgBefore env) env.raw_rows env.key_columns env.data_columns with
  | .ok (stg1, stats) =>
    StgResult.mk env.raw_table_name (raw_to_stg_name env.raw_table_name) true
      stats.rows_inserted "Success" stg1
      [⟨"raw_to_stg", raw_to_stg_name env.raw_table_name, stats.rows_inserted, "success",
        "From " ++ env.raw_table_name⟩]
  | .error e =>
    StgResult.mk env.raw_table_name (raw_to_stg_name env.raw_table_name) false 0 e
      (stgBefore env) []

/-- `process_single_table`: skip empty raw tables; when key columns are
declared (truthy), fail fast if any is absent from the data columns;
otherwise run `move_data_to_stg` and, only on success, append one audit
record.  A failure leaves the staging table unchanged and appends no
audit record. -/
def process_single_table (env : StgEnv) : StgResult :=
  if env.raw_rows.length = 0 then
    StgResult.mk env.raw_table_name (raw_to_stg_name env.raw_table_name) false 0
      "Raw table is empty" (stgBefore env) []
  else
    match env.key_columns with
    | some (k :: ks) =>
      if ((k :: ks).filter fun key => !env.data_columns.contains key).isEmpty then
        runMoveTable env
      else
        StgResult.mk env.raw_table_name (raw_to_stg_name env.raw_table_name) false 0
          (keyColumnsNotFoundMessage ((k :: ks).filter fun key => !env.data_columns.contains key))
          (stgBefore env) []
    | _ => runMoveTable env

/-- The per-table loop of `raw_to_stg.main`: each raw table is processed
independently, in order. -/
def processAllTables (envs : List StgEnv) : List StgResult :=
  envs.map process_single_table

/-- Staging state after one `move_data_to_stg` call in keyed mode; on an
error the staging table is left unchanged. -/
def stepBatch (keys cols : List String) (stg batch : List Row) : List Row :=
  match move_data_to_stg stg batch (some keys) cols with
  | .ok (stg1, _) => stg1
  | .error _ => stg

/-- Staging state after a sequence of `move_data_to_stg` runs, one per
raw batch, all against the same entity. -/
def runBatches (keys cols : List String) (stg : List Row) (batches : List (List Row)) :
    List Row :=
  batches.foldl (stepBatch keys cols) stg

/-- The no-duplication invariant: no two (positionally distinct) staging
rows agree on every declared key column under the spec's exact-value
identity `keyAgree` (NULL agreeing with NULL). -/
def noKeyDupsExact (keys : List String) (stg : List Row) : Prop :=
  stg.Pairwise fun a b => keyAgree keys a b = false

/-! ### Intake normalizer: `scripts/csv_importer.py` -/

/-- Python `str.lower`, embedded character-wise. -/
def pyLower (s : String) : String := ⟨s.data.map Char.toLower⟩

/-- Python `str.startswith` applied to the single character `_`. -/
def pyStartsUnderscore (s : String) : Bool :=
  match s.data with
  | [] => false
  | c :: _ => c == '_'

/-- Python `str.capitalize`: first character upper-cased, the rest
lower-cased. -/
def pyCapitalize (s : String) : String :=
  match s.data with
  | [] => ""
  | c :: cs => ⟨Char.toUpper c :: cs.map Char.toLower⟩

/-- Python `str.split` on a single underscore, embedded character-wise
(an empty string yields one empty word, like Python). -/
def pySplitUnderscore : List Char → List (List Char)
  | [] => [[]]
  | c :: cs =>
    match pySplitUnderscore cs with
    | [] => [[]]
    | w :: ws => if c == '_' then [] :: w :: ws else (c :: w) :: ws

/-- `base_name_to_table_name`: split the base name on underscores and
capitalize each word (`customer_profiles` -> `CustomerProfiles`). -/
def base_name_to_table_name (base : String) : String :=
  String.join ((pySplitUnderscore base.data).map fun w => pyCapitalize ⟨w⟩)

/-- The existing table's lower-cased column set with the
underscore-prefixed (metadata) names removed, as `compare_columns`
builds it.  Python sets are embedded as first-occurrence deduplicated
lists. -/
def normalizedTableSet (table_cols : List String) : List String :=
  (distinct (table_cols.map pyLower)).filter fun c => !(pyStartsUnderscore c)

/-- The incoming CSV's lower-cased column set — note: underscore-prefixed
names are NOT removed from this side. -/
def normalizedCsvSet (csv_cols : List String) : List String :=
  distinct (csv_cols.map pyLower)

/-- `compare_columns`: both column lists are lower-cased and turned into
sets; underscore-prefixed (metadata) names are then removed from the
TABLE side only; the verdict is a match exactly when both set
differences are empty. -/
def compare_columns (table_cols csv_cols : List String) :
    Bool × List String × List String :=
  let table_set := normalizedTableSet table_cols
  let csv_set := normalizedCsvSet csv_cols
  let missing_in_csv := table_set.filter fun c => !(csv_set.contains c)
  let extra_in_csv := csv_set.filter fun c => !(table_set.contains c)
  (missing_in_csv.isEmpty && extra_in_csv.isEmpty, missing_in_csv, extra_in_csv)

/-- Outcome of one `pd.read_csv` attempt under one encoding: a parsed
dataframe (already column-cleaned and empty-row-dropped), a Unicode
decoding failure (the loop tries the next encoding), or any other
exception (reported immediately with its message). -/
inductive ReadOutcome where
  | ok (df : List Row)
  | unicodeError
  | otherError (msg : String)
deriving DecidableEq, Repr

/-- `read_csv_file`: walk the configured encoding list in order; the
first successful parse wins and is returned with its encoding; a
Unicode error moves on to the next encoding; any other exception is
returned at once; only when every encoding raised a Unicode error is
the distinct exhaustion message returned. -/
def read_csv_file : List (String × ReadOutcome) → Except String (List Row × String)
  | [] => .error "Could not read file with any encoding"
  | (enc, .ok df) :: _ => .ok (df, enc)
  | (_, .unicodeError) :: rest => read_csv_file rest
  | (_, .otherError m) :: _ => .error m

/-- The environment `import_single_csv` works in, abstracting its I/O:
the parsed base name (Python-falsy empty string means the filename was
invalid), whether the raw table exists and its columns, the outcome of
the header-only column read, the per-encoding outcomes of the full read,
and the outcome of the `to_sql` write. -/
structure ImportEnv where
  filename : String
  base_name : String
  table_exists : Bool
  table_cols : List String
  csv_cols_result : Except String (List String)
  read_attempts : List (String × ReadOutcome)
  write_error : Option String

/-- The result dict of `import_single_csv`. -/
structure ImportResult where
  filename : String
  success : Bool
  table_name : Option String
  rows_imported : Nat
  message : String
deriving DecidableEq, Repr

/-- The message `import_single_csv` stores on a column mismatch
(Python list rendering, quotation marks elided). -/
def mismatchMessage (missing extra : List String) : String :=
  "Column mismatch - Missing: " ++ renderList missing ++ ", Extra: " ++ renderList extra

/-- The raw table name `import_single_csv` targets. -/
def importTableName (env : ImportEnv) : String :=
  "raw" ++ base_name_to_table_name env.base_name

/-- The read-and-write phase of `import_single_csv`: read the full CSV
through the encoding fallback, then write it with `to_sql`; one audit
record is appended only when the write succeeds. -/
def importWrite (env : ImportEnv) : ImportResult × List LogEntry :=
  match read_csv_file env.read_attempts with
  | .error e =>
    (ImportResult.mk env.filename false (some (importTableName env)) 0
      ("Error reading CSV: " ++ e), [])
  | .ok (df, _enc) =>
    match env.write_error with
    | some e => (ImportResult.mk env.filename false (some (importTableName env)) 0 e, [])
    | none =>
      (ImportResult.mk env.filename true (some (importTableName env)) df.length "Success",
       [⟨"csv_import", importTableName env, df.length, "success",
         "Imported from " ++ env.filename⟩])

/-- `import_single_csv`: reject invalid filenames; when the raw table
exists, read the CSV header and reject the batch on a column mismatch
(recording both difference lists in the message); otherwise read the
full CSV through the encoding fallback and write it, appending one
audit record only on success.  Every failure path returns zero imported
rows and appends no audit record. -/
def import_single_csv (env : ImportEnv) : ImportResult × List LogEntry :=
  if env.base_name = "" then
    (ImportResult.mk env.filename false none 0 "Invalid filename format", [])
  else if env.table_exists then
    match env.csv_cols_result with
    | .error e =>
      (ImportResult.mk env.filename false (some (importTableName env)) 0
        ("Error reading CSV: " ++ e), [])
    | .ok csv_cols =>
      if (compare_columns env.table_cols csv_cols).1 then importWrite env
      else
        (ImportResult.mk env.filename false (some (importTableName env)) 0
          (mismatchMessage (compare_columns env.table_cols csv_cols).2.1
            (compare_columns env.table_cols csv_cols).2.2), [])
  else importWrite env

/-- The per-file loop of `process_csv_folder`: every file is processed;
a failed file does not abort the others. -/
def importRunResults (envs : List ImportEnv) : List ImportResult :=
  envs.map fun e => (import_single_csv e).1

/-- The return value of `csv_importer.main`: success count, failed
count as the remainder, and `failed_count == 0` as the verdict. -/
def importMainSuccess (envs : List ImportEnv) : Bool :=
  let results := importRunResults envs
  let success_count := (results.filter fun r => r.success).length
  let failed_count := results.length - success_count
  failed_count == 0

/-- The process exit code of `python scripts/csv_importer.py`: the
`__main__` block calls `main(...)` and discards its boolean return
value, so (absent an uncaught exception) the interpreter always exits
with status 0. -/
def csvImporterProcessExitCode (_envs : List ImportEnv) : Int := 0

/-- `run_pipeline.run_step`: a step counts as successful exactly when
the subprocess exit code is 0. -/
def run_stepSuccess (returncode : Int) : Bool := returncode == 0

/-! ### Aggregation engine: `scripts/stg_to_rpt.py`, `create_account_summary` -/

/-- One `stgAccountProducts` row, restricted to the columns the account
summary reads.  The balance is embedded over `Int` as a representative
of SQLite's numeric domain (no claim exercises fractional balances). -/
structure AcctRow where
  account_type : Option String
  currency : Option String
  status : Option String
  balance : Option Int
deriving DecidableEq, Repr

/-- The `GROUP BY account_type, currency, status` grouping key.  SQLite
groups NULLs together, so plain equality of the option triple is the
grouping equivalence. -/
abbrev AcctKey := Option String × Option String × Option String

/-- Grouping key of a staging row. -/
def acctKey (r : AcctRow) : AcctKey := (r.account_type, r.currency, r.status)

/-- One `rptAccountSummary` row (the `updated_at` timestamp column is
omitted; no claim refers to it). -/
structure AcctSummaryRow where
  account_type : String
  currency : String
  status : String
  account_count : Nat
  total_balance : Int
  avg_balance : Int × Nat
  min_balance : Int
  max_balance : Int
deriving DecidableEq, Repr

/-- `COALESCE(SUM(balance), 0)`: SQL SUM ignores NULLs and is NULL on an
empty (all-NULL) group, which COALESCE turns into 0 — arithmetically the
plain sum of the non-NULL values. -/
def sqlSumCoalesce (l : List Int) : Int := l.foldr (· + ·) 0

/-- `COALESCE(AVG(balance), 0)` over the non-NULL values of a group,
embedded as the exact unreduced fraction (numerator, denominator): the
sum of the non-NULL values over their number, and 0/1 for an all-NULL
group. -/
def sqlAvgCoalesce (l : List Int) : Int × Nat :=
  if l.isEmpty then (0, 1) else (sqlSumCoalesce l, l.length)

/-- `COALESCE(MIN(balance), 0)` over the non-NULL values of a group. -/
def sqlMinCoalesce (l : List Int) : Int :=
  match l with
  | [] => 0
  | x :: xs => xs.foldl min x

/-- `COALESCE(MAX(balance), 0)` over the non-NULL values of a group. -/
def sqlMaxCoalesce (l : List Int) : Int :=
  match l with
  | [] => 0
  | x :: xs => xs.foldl max x

/-- The summary row the `CREATE TABLE rptAccountSummary AS SELECT ...
GROUP BY account_type, currency, status` statement produces for one
grouping key: COALESCEd display columns, `COUNT(*)` over the group, and
NULL-safe aggregates over the group's balances. -/
def buildAcctSummaryRow (stg : List AcctRow) (k : AcctKey) : AcctSummaryRow :=
  let g := stg.filter fun r => decide (acctKey r = k)
  let bs := g.filterMap fun r => r.balance
  { account_type := k.1.getD "Unknown"
    currency := k.2.1.getD "USD"
    status := k.2.2.getD "active"
    account_count := g.length
    total_balance := sqlSumCoalesce bs
    avg_balance := sqlAvgCoalesce bs
    min_balance := sqlMinCoalesce bs
    max_balance := sqlMaxCoalesce bs }

/-- `create_account_summary`'s SELECT: one summary row per distinct
grouping key of the staging table. -/
def create_account_summary (stg : List AcctRow) : List AcctSummaryRow :=
  (distinct (stg.map acctKey)).map (buildAcctSummaryRow stg)

/-- The whole table rebuild: `DROP TABLE IF EXISTS rptAccountSummary`
followed by `CREATE TABLE rptAccountSummary AS SELECT ...` — the prior
contents are discarded and the new table is computed from the staging
table alone. -/
def rebuildAccountSummary (_oldRpt : List AcctSummaryRow) (stg : List AcctRow) :
    List AcctSummaryRow :=
  create_account_summary stg

/-! ### Helper lemmas about the reconciliation embedding -/

theorem sqlEq_self_of_ne_none {a : Value} (h : a ≠ none) : sqlEq a a = true := by
  match a with
  | none => exact absurd rfl h
  | some x => simp [sqlEq]

/-- A projected row key-matches the row it was projected from, provided
every key column is among the projected columns and carries a non-NULL
value. -/
theorem keyMatch_projectRow_self (keys cols : List String) (r : Row)
    (hkeys : ∀ key ∈ keys, key ∈ cols)
    (hnn : ∀ key ∈ keys, r.get key ≠ none) :
    keyMatch keys (projectRow cols r) r = true := by
  unfold keyMatch
  rw [List.all_eq_true]
  intro key hkey
  rw [get_projectRow r (hkeys key hkey)]
  exact sqlEq_self_of_ne_none (hnn key hkey)

/-- Replacing the raw-side row of a key comparison by its projection
does not change the comparison, provided every key column is among the
projected columns. -/
theorem keyMatch_projectRow_right (keys cols : List String) (s r : Row)
    (hkeys : ∀ key ∈ keys, key ∈ cols) :
    keyMatch keys s (projectRow cols r) = keyMatch keys s r := by
  unfold keyMatch
  induction keys with
  | nil => rfl
  | cons k ks ih =>
    rw [List.all_cons, List.all_cons, get_projectRow r (hkeys k (List.mem_cons_self k ks)),
      ih fun key hkey => hkeys key (List.mem_cons_of_mem k hkey)]

/-- When every raw row already finds a key match in the staging table,
the keyed insert selects nothing. -/
theorem keyedCandidates_eq_nil_of_matched (stg raw : List Row) (keys cols : List String)
    (h : ∀ r ∈ raw, (stg.any fun s => keyMatch keys s r) = true) :
    keyedCandidates stg raw keys cols = [] := by
  unfold keyedCandidates
  have hfil : (raw.filter fun r => !(stg.any fun s => keyMatch keys s r)) = [] := by
    rw [List.filter_eq_nil_iff]
    intro r hr
    rw [h r hr]
    simp
  rw [hfil]
  rfl

/-- After one keyed `move_data_to_stg` pass, every raw row with fully
non-NULL key values finds a key match in the resulting staging table,
so a second pass over the same raw table selects nothing. -/
theorem keyedCandidates_after_move (stg raw : List Row) (keys cols : List String)
    (hkeys : ∀ key ∈ keys, key ∈ cols)
    (hnn : ∀ r ∈ raw, ∀ key ∈ keys, r.get key ≠ none) :
    keyedCandidates (stg ++ keyedCandidates stg raw keys cols) raw keys cols = [] := by
  have hcov : ∀ r ∈ raw,
      ((stg ++ keyedCandidates stg raw keys cols).any fun s => keyMatch keys s r) = true := by
    intro r hr
    by_cases hstg : (stg.any fun s => keyMatch keys s r) = true
    · rw [List.any_append, hstg, Bool.true_or]
    · have hfilter : r ∈ raw.filter fun r => !(stg.any fun s => keyMatch keys s r) :=
        List.mem_filter.mpr ⟨hr, by rw [Bool.eq_false_iff.mpr hstg]; rfl⟩
      have hmem : projectRow cols r ∈ keyedCandidates stg raw keys cols :=
        mem_distinct (List.mem_map_of_mem (projectRow cols) hfilter)
      rw [List.any_eq_true]
      exact ⟨projectRow cols r, List.mem_append_right stg hmem,
        keyMatch_projectRow_self keys cols r hkeys (hnn r hr)⟩
  exact keyedCandidates_eq_nil_of_matched _ raw keys cols hcov

/-! ### Claim C1 — idempotence of `move_data_to_stg` -/

/-- C1 (counterexample): reconciliation is NOT idempotent as claimed.
With declared key `k` and a raw row whose key value is NULL, the keyed
`NOT EXISTS` test (`stg."k" = raw."k"`, SQL three-valued equality) never
matches a NULL key, so an immediate second `move_data_to_stg` run over
the unchanged raw table inserts the row again: `rows_inserted = 1`, not
0, on the second call. -/
theorem c1_counterexample :
    move_data_to_stg [] [⟨[("k", none), ("v", some "x")]⟩] (some ["k"]) ["k", "v"]
      = .ok ([⟨[("k", none), ("v", some "x")]⟩], ⟨1, 0, 1⟩) ∧
    move_data_to_stg [⟨[("k", none), ("v", some "x")]⟩]
      [⟨[("k", none), ("v", some "x")]⟩] (some ["k"]) ["k", "v"]
      = .ok ([⟨[("k", none), ("v", some "x")]⟩, ⟨[("k", none), ("v", some "x")]⟩],
             ⟨1, 1, 2⟩) ∧
    (1 : Nat) ≠ 0 :=
  ⟨rfl, rfl, by decide⟩

/-- C1 (amended): in keyed mode, running `move_data_to_stg` a second
time immediately after a first run, with the raw table unchanged in
between, inserts exactly zero rows (`rows_inserted = 0` and the staging
contents unchanged), provided every declared key column is among the
data columns and every raw row carries a non-NULL value in every key
column.  (With a NULL key value idempotence fails — see the
counterexample — and in the unkeyed mode the operation fails with an
SQL error without inserting anything, see claim C6.) -/
theorem c1_keyed_idempotence_amended (stg raw : List Row) (k : String) (ks cols : List String)
    (hkeys : ∀ key ∈ k :: ks, key ∈ cols)
    (hnn : ∀ r ∈ raw, ∀ key ∈ k :: ks, r.get key ≠ none) :
    ∃ stg1 s1, move_data_to_stg stg raw (some (k :: ks)) cols = .ok (stg1, s1) ∧
      move_data_to_stg stg1 raw (some (k :: ks)) cols
        = .ok (stg1, ⟨0, stg1.length, stg1.length⟩) := by
  refine ⟨stg ++ keyedCandidates stg raw (k :: ks) cols, _, rfl, ?_⟩
  have hnil := keyedCandidates_after_move stg raw (k :: ks) cols hkeys hnn
  show Except.ok (_, _) = _
  rw [show keyedCandidates (stg ++ keyedCandidates stg raw (k :: ks) cols) raw (k :: ks) cols
      = [] from hnil]
  simp

/-- Witness for the amended C1 at a concrete input: one customer row
with a non-NULL key; the second run returns `rows_inserted = 0`. -/
theorem c1_keyed_idempotence_amended_witness :
    ∃ stg1 s1,
      move_data_to_stg [] [⟨[("customer_id", some "C1"), ("name", some "Ann")]⟩]
        (some ["customer_id"]) ["customer_id", "name"] = .ok (stg1, s1) ∧
      move_data_to_stg stg1 [⟨[("customer_id", some "C1"), ("name", some "Ann")]⟩]
        (some ["customer_id"]) ["customer_id", "name"]
        = .ok (stg1, ⟨0, stg1.length, stg1.length⟩) :=
  c1_keyed_idempotence_amended [] [⟨[("customer_id", some "C1"), ("name", some "Ann")]⟩]
    "customer_id" [] ["customer_id", "name"] (by decide) (by decide)

/-! ### Claim C6 — unkeyed (full-row) admission mode -/

/-- C6 (code bug): for an entity with no declared identity key the
intended full-row admission never happens.  The unkeyed branch of
`move_data_to_stg` builds its `NOT EXISTS` condition over `raw."col"`
references, but — unlike the keyed branch — its outer `FROM` clause
binds no `raw` alias, so SQLite raises
`OperationalError: no such column: raw.k` and admits nothing; the batch
fails with that message, leaving the staging table unchanged.  The
function's own docstring ("If key_columns is None, use DISTINCT on all
columns") and the spec's full-row fallback are therefore unreachable. -/
theorem c6_unkeyed_sql_failure :
    move_data_to_stg [] [⟨[("k", some "1"), ("v", some "a")]⟩] none ["k", "v"]
      = .error "no such column: raw.k" ∧
    move_data_to_stg [⟨[("k", some "1"), ("v", some "a")]⟩]
      [⟨[("k", some "1"), ("v", some "a")]⟩] none ["k", "v"]
      = .error "no such column: raw.k" ∧
    process_single_table ⟨"rawAuditLog", [⟨[("k", some "1"), ("v", some "a")]⟩], true,
        [], ["k", "v"], none⟩
      = ⟨"rawAuditLog", "stgAuditLog", false, 0, "no such column: raw.k", [], []⟩ :=
  ⟨rfl, rfl, rfl⟩

/-! ### Claim C2 — no-duplication invariant of the staging table -/

/-- C2 (counterexample): the no-duplication invariant fails in two
ways, with row agreement read as the spec's exact value equality
(`keyAgree`).  (i) One raw batch holding two rows that share the
declared key but differ on a non-key column: SQLite materialises the
`SELECT` before inserting, so the `NOT EXISTS` test sees only the
pre-statement staging contents and both rows are admitted.  (ii) Two
singleton batches whose rows carry a NULL key value: the keyed
`stg."k" = raw."k"` test is never TRUE for NULL, so the second run
admits the second row as well, although both rows agree on the key
column under exact value equality (NULL agreeing with NULL). -/
theorem c2_counterexample :
    move_data_to_stg []
      [⟨[("k", some "1"), ("v", some "a")]⟩, ⟨[("k", some "1"), ("v", some "b")]⟩]
      (some ["k"]) ["k", "v"]
      = .ok ([⟨[("k", some "1"), ("v", some "a")]⟩, ⟨[("k", some "1"), ("v", some "b")]⟩],
             ⟨2, 0, 2⟩) ∧
    keyAgree ["k"] ⟨[("k", some "1"), ("v", some "a")]⟩
      ⟨[("k", some "1"), ("v", some "b")]⟩ = true ∧
    (⟨[("k", some "1"), ("v", some "a")]⟩ : Row) ≠ ⟨[("k", some "1"), ("v", some "b")]⟩ ∧
    runBatches ["k"] ["k", "v"] []
      [[⟨[("k", none), ("v", some "a")]⟩], [⟨[("k", none), ("v", some "b")]⟩]]
      = [⟨[("k", none), ("v", some "a")]⟩, ⟨[("k", none), ("v", some "b")]⟩] ∧
    keyAgree ["k"] ⟨[("k", none), ("v", some "a")]⟩
      ⟨[("k", none), ("v", some "b")]⟩ = true ∧
    (⟨[("k", none), ("v", some "a")]⟩ : Row) ≠ ⟨[("k", none), ("v", some "b")]⟩ :=
  ⟨rfl, rfl, by decide, rfl, rfl, by decide⟩

theorem pairwise_combine {α : Type _} {R S T : α → α → Prop} :
    ∀ {l : List α}, l.Pairwise R → l.Pairwise S →
      (∀ a b, R a b → S a b → T a b) → l.Pairwise T
  | [], _, _, _ => List.Pairwise.nil
  | a :: t, h1, h2, himp => by
    rcases List.pairwise_cons.mp h1 with ⟨h1a, h1t⟩
    rcases List.pairwise_cons.mp h2 with ⟨h2a, h2t⟩
    exact List.Pairwise.cons (fun b hb => himp a b (h1a b hb) (h2a b hb))
      (pairwise_combine h1t h2t himp)

/-- The rows a keyed insert admits form a sublist of the projections of
the raw batch. -/
theorem keyedCandidates_sublist (stg raw : List Row) (keys cols : List String) :
    (keyedCandidates stg raw keys cols).Sublist (raw.map (projectRow cols)) :=
  (distinct_sublist _).trans ((List.filter_sublist raw).map (projectRow cols))

/-- On non-NULL values the NULL-safe `IS` test coincides with the SQL
`=` test. -/
theorem sqlIs_eq_sqlEq_of_ne_none {a b : Value} (ha : a ≠ none) (hb : b ≠ none) :
    sqlIs a b = sqlEq a b := by
  match a, b with
  | some _, some _ => rfl
  | none, _ => exact absurd rfl ha
  | some _, none => exact absurd rfl hb

/-- Exact-value key agreement coincides with the SQL `=` key test when
both rows carry non-NULL values in every key column. -/
theorem keyAgree_eq_keyMatch_of_nonnull :
    ∀ (keys : List String) (a b : Row),
      (∀ key ∈ keys, a.get key ≠ none) → (∀ key ∈ keys, b.get key ≠ none) →
      keyAgree keys a b = keyMatch keys a b
  | [], _, _, _, _ => rfl
  | k :: ks, a, b, ha, hb => by
    have hrest := keyAgree_eq_keyMatch_of_nonnull ks a b
      (fun key hk => ha key (List.mem_cons_of_mem k hk))
      (fun key hk => hb key (List.mem_cons_of_mem k hk))
    unfold keyAgree keyMatch at hrest ⊢
    rw [List.all_cons, List.all_cons,
      sqlIs_eq_sqlEq_of_ne_none (ha k (List.mem_cons_self k ks))
        (hb k (List.mem_cons_self k ks)), hrest]

/-- Rows admitted by a keyed insert inherit non-NULL key values from
the raw batch. -/
theorem keyedCandidates_nonnull (stg batch : List Row) (keys cols : List String)
    (hkeys : ∀ key ∈ keys, key ∈ cols)
    (hbnn : ∀ r ∈ batch, ∀ key ∈ keys, r.get key ≠ none) :
    ∀ m ∈ keyedCandidates stg batch keys cols, ∀ key ∈ keys, m.get key ≠ none := by
  intro m hm key hkey
  have hm' : m ∈ (batch.filter fun r => !(stg.any fun s => keyMatch keys s r)).map
      (projectRow cols) :=
    (distinct_sublist _).subset hm
  obtain ⟨r, hr, rfl⟩ := List.mem_map.mp hm'
  rw [get_projectRow r (hkeys key hkey)]
  exact hbnn r (List.mem_filter.mp hr).1 key hkey

/-- One keyed `move_data_to_stg` pass preserves the exact-value
no-duplication invariant, provided the staging rows and the batch rows
all carry non-NULL key values and no two distinct projected rows of the
batch agree on the key. -/
theorem keyed_step_preserves_noKeyDupsExact (stg batch : List Row) (keys cols : List String)
    (hkeys : ∀ key ∈ keys, key ∈ cols)
    (hstgnn : ∀ s ∈ stg, ∀ key ∈ keys, s.get key ≠ none)
    (hbnn : ∀ r ∈ batch, ∀ key ∈ keys, r.get key ≠ none)
    (hbatch : (batch.map (projectRow cols)).Pairwise
      fun a b => keyAgree keys a b = false ∨ a = b)
    (hstg : noKeyDupsExact keys stg) :
    noKeyDupsExact keys (stg ++ keyedCandidates stg batch keys cols) := by
  rw [noKeyDupsExact, List.pairwise_append]
  refine ⟨hstg, ?_, ?_⟩
  · have h1 : (keyedCandidates stg batch keys cols).Pairwise
        (fun a b => keyAgree keys a b = false ∨ a = b) :=
      hbatch.sublist (keyedCandidates_sublist stg batch keys cols)
    have h2 : (keyedCandidates stg batch keys cols).Pairwise (· ≠ ·) :=
      distinct_pairwise_ne _
    exact pairwise_combine h1 h2 fun a b hor hne => hor.resolve_right hne
  · intro s hs m hm
    have hm' : m ∈ (batch.filter fun r => !(stg.any fun s => keyMatch keys s r)).map
        (projectRow cols) :=
      (distinct_sublist _).subset hm
    obtain ⟨r, hr, rfl⟩ := List.mem_map.mp hm'
    obtain ⟨hrb, hpred⟩ := List.mem_filter.mp hr
    have hany : (stg.any fun s => keyMatch keys s r) = false := by
      cases hval : (stg.any fun s => keyMatch keys s r) with
      | false => rfl
      | true => rw [hval] at hpred; exact absurd hpred (by decide)
    have hprojnn : ∀ key ∈ keys, (projectRow cols r).get key ≠ none := by
      intro key hkey
      rw [get_projectRow r (hkeys key hkey)]
      exact hbnn r hrb key hkey
    rw [keyAgree_eq_keyMatch_of_nonnull keys s (projectRow cols r) (hstgnn s hs) hprojnn,
      keyMatch_projectRow_right keys cols s r hkeys]
    exact Bool.eq_false_iff.mpr ((List.any_eq_false.mp hany) s hs)

/-- In keyed mode a `move_data_to_stg` step is exactly "append the
admitted candidates". -/
theorem stepBatch_keyed (k : String) (ks cols : List String) (stg batch : List Row) :
    stepBatch (k :: ks) cols stg batch = stg ++ keyedCandidates stg batch (k :: ks) cols := rfl

/-- C2 (amended): for an entity with a declared (non-empty) identity
key whose columns are all among the data columns, after any sequence of
keyed `move_data_to_stg` runs starting from an empty staging table the
staging table never contains two distinct rows that agree on every key
column under exact value equality (NULL agreeing with NULL, the spec's
row identity) — PROVIDED every raw row carries a non-NULL value in
every key column AND no single raw batch contains two distinct
projected rows that agree on every key column.  Both provisos are
forced by the counterexample: a batch with an internal key duplicate
admits both rows, and NULL-keyed rows are re-admitted on every run
because the SQL `=` test never matches a NULL. -/
theorem c2_no_duplication_amended (k : String) (ks cols : List String)
    (batches : List (List Row))
    (hkeys : ∀ key ∈ k :: ks, key ∈ cols)
    (hnn : ∀ b ∈ batches, ∀ r ∈ b, ∀ key ∈ k :: ks, r.get key ≠ none)
    (hb : ∀ b ∈ batches, (b.map (projectRow cols)).Pairwise
      fun a c => keyAgree (k :: ks) a c = false ∨ a = c) :
    noKeyDupsExact (k :: ks) (runBatches (k :: ks) cols [] batches) := by
  suffices H : ∀ (bs : List (List Row)) (stg : List Row), noKeyDupsExact (k :: ks) stg →
      (∀ s ∈ stg, ∀ key ∈ k :: ks, s.get key ≠ none) →
      (∀ b ∈ bs, ∀ r ∈ b, ∀ key ∈ k :: ks, r.get key ≠ none) →
      (∀ b ∈ bs, (b.map (projectRow cols)).Pairwise
        fun a c => keyAgree (k :: ks) a c = false ∨ a = c) →
      noKeyDupsExact (k :: ks) (runBatches (k :: ks) cols stg bs) by
    exact H batches [] List.Pairwise.nil
      (fun s hs => absurd hs (List.not_mem_nil s)) hnn hb
  intro bs
  induction bs with
  | nil => intro stg hstg _ _ _; exact hstg
  | cons b rest ih =>
    intro stg hstg hstgnn hbsnn hbspw
    rw [runBatches, List.foldl_cons, stepBatch_keyed]
    have hbnn := hbsnn b (List.mem_cons_self b rest)
    apply ih
    · exact keyed_step_preserves_noKeyDupsExact stg b (k :: ks) cols hkeys hstgnn hbnn
        (hbspw b (List.mem_cons_self b rest)) hstg
    · intro s hs key hkey
      rcases List.mem_append.mp hs with h1 | h2
      · exact hstgnn s h1 key hkey
      · exact keyedCandidates_nonnull stg b (k :: ks) cols hkeys hbnn s h2 key hkey
    · exact fun b' hb' => hbsnn b' (List.mem_cons_of_mem b hb')
    · exact fun b' hb' => hbspw b' (List.mem_cons_of_mem b hb')

/-- Witness for the amended C2: two one-row batches with distinct
non-NULL keys leave a staging table free of key duplicates under exact
value equality. -/
theorem c2_no_duplication_amended_witness :
    noKeyDupsExact ["k"] (runBatches ["k"] ["k", "v"] []
      [[⟨[("k", some "1"), ("v", some "a")]⟩], [⟨[("k", some "2"), ("v", some "b")]⟩]]) :=
  c2_no_duplication_amended "k" [] ["k", "v"]
    [[⟨[("k", some "1"), ("v", some "a")]⟩], [⟨[("k", some "2"), ("v", some "b")]⟩]]
    (by decide) (by decide)
    (by
      intro b hb
      rcases List.mem_cons.mp hb with rfl | hb'
      · exact List.pairwise_cons.mpr ⟨by simp, List.Pairwise.nil⟩
      · rcases List.mem_cons.mp hb' with rfl | hb''
        · exact List.pairwise_cons.mpr ⟨by simp, List.Pairwise.nil⟩
        · exact absurd hb'' (List.not_mem_nil b))

/-! ### Helper lemmas about the intake embedding -/

theorem contains_iff {l : List String} {x : String} : l.contains x = true ↔ x ∈ l := by
  simp [List.contains, List.elem_iff]

/-- Lower-casing preserves a leading underscore. -/
theorem pyStartsUnderscore_pyLower (s : String) (h : pyStartsUnderscore s = true) :
    pyStartsUnderscore (pyLower s) = true := by
  obtain ⟨data⟩ := s
  match data with
  | [] => exact absurd h (by simp [pyStartsUnderscore])
  | c :: cs =>
    have hc : c = '_' := by
      have h' := h
      simp [pyStartsUnderscore] at h'
      exact h'
    subst hc
    simp [pyStartsUnderscore, pyLower]

/-- A filter by non-membership is empty exactly when the first list is
included in the second. -/
theorem filter_not_contains_eq_nil_iff (A B : List String) :
    (A.filter fun c => !(B.contains c)) = [] ↔ ∀ x ∈ A, x ∈ B := by
  rw [List.filter_eq_nil_iff]
  constructor
  · intro h x hx
    have hb := h x hx
    rw [Bool.not_eq_true, Bool.not_eq_false'] at hb
    exact contains_iff.mp hb
  · intro h x hx
    rw [Bool.not_eq_true, Bool.not_eq_false']
    exact contains_iff.mpr (h x hx)

/-- When the raw table exists and the column comparison fails,
`import_single_csv` rejects the batch: no success, zero rows, the
mismatch message carrying both difference lists, and no audit entry. -/
theorem import_rejected_of_mismatch (env : ImportEnv) (csv_cols : List String)
    (hb : env.base_name ≠ "") (hex : env.table_exists = true)
    (hcols : env.csv_cols_result = .ok csv_cols)
    (hcmp : (compare_columns env.table_cols csv_cols).1 = false) :
    import_single_csv env
      = (ImportResult.mk env.filename false (some (importTableName env)) 0
          (mismatchMessage (compare_columns env.table_cols csv_cols).2.1
            (compare_columns env.table_cols csv_cols).2.2), []) := by
  unfold import_single_csv
  rw [if_neg hb, hex, if_pos rfl, hcols]
  simp [hcmp]

/-! ### Claim C3 — schema-drift rejection -/

/-- C3: when the raw table exists, `compare_columns` compares the
table's non-metadata lower-cased column set with the CSV's lower-cased
column set; the verdict is a match exactly on set equality; on a
mismatch `import_single_csv` rejects the batch with zero rows, no audit
entry, and a message carrying both difference lists; and the spec's
example — table columns a,b,c (plus metadata) versus CSV columns
a,b,d — yields missing = [c], extra = [d]. -/
theorem c3_schema_drift_rejection :
    (∀ table_cols csv_cols : List String,
      ((compare_columns table_cols csv_cols).1 = true ↔
        ∀ x, x ∈ normalizedTableSet table_cols ↔ x ∈ normalizedCsvSet csv_cols)) ∧
    (∀ (env : ImportEnv) (csv_cols : List String), env.base_name ≠ "" →
      env.table_exists = true → env.csv_cols_result = .ok csv_cols →
      (compare_columns env.table_cols csv_cols).1 = false →
      (import_single_csv env).1.success = false ∧
      (import_single_csv env).1.rows_imported = 0 ∧
      (import_single_csv env).2 = [] ∧
      (import_single_csv env).1.message
        = mismatchMessage (compare_columns env.table_cols csv_cols).2.1
            (compare_columns env.table_cols csv_cols).2.2) ∧
    compare_columns ["a", "b", "c", "_imported_at"] ["a", "b", "d"]
      = (false, ["c"], ["d"]) := by
  refine ⟨?_, ?_, by decide⟩
  · intro table_cols csv_cols
    show (_ && _) = true ↔ _
    rw [Bool.and_eq_true, List.isEmpty_iff, List.isEmpty_iff,
      filter_not_contains_eq_nil_iff, filter_not_contains_eq_nil_iff]
    constructor
    · intro ⟨h1, h2⟩ x
      exact ⟨fun hx => h1 x hx, fun hx => h2 x hx⟩
    · intro h
      exact ⟨fun x hx => (h x).mp hx, fun x hx => (h x).mpr hx⟩
  · intro env csv_cols hb hex hcols hcmp
    rw [import_rejected_of_mismatch env csv_cols hb hex hcols hcmp]
    exact ⟨rfl, rfl, rfl, rfl⟩

/-- Witness for C3 at the spec's own example: table a,b,c (plus a
metadata column) against CSV a,b,d is rejected with zero rows, no audit
entry, and missing = [c], extra = [d] in the message. -/
theorem c3_schema_drift_rejection_witness :
    (import_single_csv ⟨"widgets.csv", "widgets", true, ["a", "b", "c", "_imported_at"],
        .ok ["a", "b", "d"], [], none⟩).1.success = false ∧
    (import_single_csv ⟨"widgets.csv", "widgets", true, ["a", "b", "c", "_imported_at"],
        .ok ["a", "b", "d"], [], none⟩).1.rows_imported = 0 ∧
    (import_single_csv ⟨"widgets.csv", "widgets", true, ["a", "b", "c", "_imported_at"],
        .ok ["a", "b", "d"], [], none⟩).2 = [] ∧
    (import_single_csv ⟨"widgets.csv", "widgets", true, ["a", "b", "c", "_imported_at"],
        .ok ["a", "b", "d"], [], none⟩).1.message = mismatchMessage ["c"] ["d"] ∧
    compare_columns ["a", "b", "c", "_imported_at"] ["a", "b", "d"]
      = (false, ["c"], ["d"]) := by
  have h := c3_schema_drift_rejection.2.1
    ⟨"widgets.csv", "widgets", true, ["a", "b", "c", "_imported_at"],
      .ok ["a", "b", "d"], [], none⟩
    ["a", "b", "d"] (by decide) rfl rfl (by decide)
  refine ⟨h.1, h.2.1, h.2.2.1, ?_, c3_schema_drift_rejection.2.2⟩
  have hmsg := h.2.2.2
  rw [show compare_columns ["a", "b", "c", "_imported_at"] ["a", "b", "d"]
      = (false, ["c"], ["d"]) from by decide] at hmsg
  exact hmsg

/-! ### Claim C10 — metadata-column asymmetry of `compare_columns` -/

/-- C10: `compare_columns` removes underscore-prefixed names only from
the existing table's column set, not from the CSV's; hence a CSV
containing any underscore-prefixed column is always judged a mismatch
against every existing table, that column (lower-cased) is reported in
the extra-in-CSV list, and the batch is rejected with zero rows. -/
theorem c10_metadata_asymmetry (env : ImportEnv) (csv_cols : List String) (c : String)
    (hb : env.base_name ≠ "") (hex : env.table_exists = true)
    (hcols : env.csv_cols_result = .ok csv_cols)
    (hc : c ∈ csv_cols) (hu : pyStartsUnderscore c = true) :
    (compare_columns env.table_cols csv_cols).1 = false ∧
    pyLower c ∈ (compare_columns env.table_cols csv_cols).2.2 ∧
    (import_single_csv env).1.success = false ∧
    (import_single_csv env).1.rows_imported = 0 := by
  have hmemC : pyLower c ∈ normalizedCsvSet csv_cols :=
    mem_distinct (List.mem_map_of_mem pyLower hc)
  have hlu : pyStartsUnderscore (pyLower c) = true := pyStartsUnderscore_pyLower c hu
  have hnotT : (normalizedTableSet env.table_cols).contains (pyLower c) = false := by
    rw [← Bool.not_eq_true]
    intro hct
    have hmemT := contains_iff.mp hct
    have hpred := (List.mem_filter.mp hmemT).2
    rw [hlu] at hpred
    exact absurd hpred (by decide)
  have hextra : pyLower c ∈ (compare_columns env.table_cols csv_cols).2.2 := by
    show pyLower c ∈ (normalizedCsvSet csv_cols).filter
      fun x => !((normalizedTableSet env.table_cols).contains x)
    exact List.mem_filter.mpr ⟨hmemC, by rw [hnotT]; rfl⟩
  have hfalse : (compare_columns env.table_cols csv_cols).1 = false := by
    have hne : ((normalizedCsvSet csv_cols).filter
        fun x => !((normalizedTableSet env.table_cols).contains x)) ≠ [] :=
      List.ne_nil_of_mem hextra
    show (_ && List.isEmpty _) = false
    rw [show (List.isEmpty ((normalizedCsvSet csv_cols).filter
        fun x => !((normalizedTableSet env.table_cols).contains x))) = false from by
      cases hie : List.isEmpty _
      · rfl
      · exact absurd (List.isEmpty_iff.mp hie) hne]
    exact Bool.and_false _
  refine ⟨hfalse, hextra, ?_, ?_⟩ <;>
    rw [import_rejected_of_mismatch env csv_cols hb hex hcols hfalse]

/-- Witness for C10: a CSV carrying the metadata column `_imported_at`
is rejected against an existing table and that column shows up in the
extra-in-CSV list. -/
theorem c10_metadata_asymmetry_witness :
    (compare_columns ["a"] ["a", "_imported_at"]).1 = false ∧
    pyLower "_imported_at" ∈ (compare_columns ["a"] ["a", "_imported_at"]).2.2 ∧
    (import_single_csv ⟨"gadgets.csv", "gadgets", true, ["a"],
        .ok ["a", "_imported_at"], [], none⟩).1.success = false ∧
    (import_single_csv ⟨"gadgets.csv", "gadgets", true, ["a"],
        .ok ["a", "_imported_at"], [], none⟩).1.rows_imported = 0 :=
  c10_metadata_asymmetry
    ⟨"gadgets.csv", "gadgets", true, ["a"], .ok ["a", "_imported_at"], [], none⟩
    ["a", "_imported_at"] "_imported_at" (by decide) rfl rfl (by decide) (by decide)

/-! ### Claim C8 — key-columns-missing fail-fast -/

/-- C8: when key columns are declared (a truthy, non-empty list) and at
least one is absent from the raw table's non-metadata data columns,
`process_single_table` fails for that batch with the
key-columns-not-found message, inserts nothing (the staging table is
unchanged and no audit entry is appended, so it never falls back to the
full-row comparison), while sibling tables in the same run are
processed exactly as they would be on their own. -/
theorem c8_key_columns_missing (env : StgEnv) (k : String) (ks : List String)
    (hk : env.key_columns = some (k :: ks))
    (h0 : env.raw_rows.length ≠ 0)
    (hmiss : ∃ key ∈ k :: ks, key ∉ env.data_columns) :
    process_single_table env
      = StgResult.mk env.raw_table_name (raw_to_stg_name env.raw_table_name) false 0
          (keyColumnsNotFoundMessage
            ((k :: ks).filter fun key => !env.data_columns.contains key))
          (stgBefore env) [] ∧
    ∀ pre post : List StgEnv,
      processAllTables (pre ++ env :: post)
        = processAllTables pre ++ process_single_table env :: processAllTables post := by
  constructor
  · have hie : ((k :: ks).filter fun key => !env.data_columns.contains key).isEmpty
        = false := by
      obtain ⟨key, hkm, hknot⟩ := hmiss
      have hkc : env.data_columns.contains key = false := by
        rw [← Bool.not_eq_true]
        intro hct
        exact hknot (contains_iff.mp hct)
      have hmem : key ∈ (k :: ks).filter fun key => !env.data_columns.contains key :=
        List.mem_filter.mpr ⟨hkm, by rw [hkc]; rfl⟩
      cases hcase : ((k :: ks).filter fun key => !env.data_columns.contains key).isEmpty
      · rfl
      · exact absurd (List.isEmpty_iff.mp hcase) (List.ne_nil_of_mem hmem)
    unfold process_single_table
    rw [if_neg h0, hk]
    dsimp only
    rw [hie]
    simp
  · intro pre post
    simp [processAllTables, List.map_append]

/-- Witness for C8: a raw table whose configured key `loan_id` is not
among its data columns is rejected with the fail-fast message and an
unchanged (empty) staging table. -/
theorem c8_key_columns_missing_witness :
    process_single_table ⟨"rawLoans", [⟨[("a", some "1")]⟩], false, [], ["a", "b"],
        some ["loan_id"]⟩
      = StgResult.mk "rawLoans" (raw_to_stg_name "rawLoans") false 0
          (keyColumnsNotFoundMessage
            ((["loan_id"]).filter fun key => !(["a", "b"]).contains key))
          (stgBefore ⟨"rawLoans", [⟨[("a", some "1")]⟩], false, [], ["a", "b"],
            some ["loan_id"]⟩) [] ∧
    ∀ pre post : List StgEnv,
      processAllTables (pre
          ++ (⟨"rawLoans", [⟨[("a", some "1")]⟩], false, [], ["a", "b"],
              some ["loan_id"]⟩ : StgEnv) :: post)
        = processAllTables pre
          ++ process_single_table ⟨"rawLoans", [⟨[("a", some "1")]⟩], false, [], ["a", "b"],
              some ["loan_id"]⟩ :: processAllTables post :=
  c8_key_columns_missing
    ⟨"rawLoans", [⟨[("a", some "1")]⟩], false, [], ["a", "b"], some ["loan_id"]⟩
    "loan_id" [] rfl (by decide) ⟨"loan_id", by decide, by decide⟩

/-! ### Claim C9 — encoding fallback of `read_csv_file` -/

/-- C9: `read_csv_file` walks the configured encodings in order; the
first encoding that parses successfully wins and is returned with the
data (every earlier encoding having raised a Unicode error); and the
distinct hard read failure "Could not read file with any encoding" is
reported exactly when every encoding in the list was attempted and
failed with a Unicode error.  (The side condition excludes the
degenerate case of a non-Unicode exception whose text coincides with
the exhaustion message, which the string-typed Python return value
could not distinguish either.) -/
theorem c9_encoding_fallback (attempts : List (String × ReadOutcome))
    (hclean : ∀ a ∈ attempts,
      a.2 ≠ ReadOutcome.otherError "Could not read file with any encoding") :
    (read_csv_file attempts = .error "Could not read file with any encoding" ↔
      ∀ a ∈ attempts, a.2 = ReadOutcome.unicodeError) ∧
    ∀ df enc, read_csv_file attempts = .ok (df, enc) →
      ∃ pre rest, attempts = pre ++ (enc, ReadOutcome.ok df) :: rest ∧
        ∀ a ∈ pre, a.2 = ReadOutcome.unicodeError := by
  induction attempts with
  | nil =>
    refine ⟨⟨fun _ a ha => absurd ha (List.not_mem_nil a), fun _ => rfl⟩, ?_⟩
    intro df enc h
    exact absurd h (by simp [read_csv_file])
  | cons hd rest ih =>
    obtain ⟨enc₀, o⟩ := hd
    have hclean' : ∀ a ∈ rest,
        a.2 ≠ ReadOutcome.otherError "Could not read file with any encoding" :=
      fun a ha => hclean a (List.mem_cons_of_mem _ ha)
    match o with
    | .ok df₀ =>
      refine ⟨⟨fun h => absurd h (by simp [read_csv_file]), fun hall => ?_⟩, ?_⟩
      · have := hall (enc₀, .ok df₀) (List.mem_cons_self _ _)
        exact absurd this (by simp)
      · intro df enc h
        rw [show read_csv_file ((enc₀, ReadOutcome.ok df₀) :: rest)
            = .ok (df₀, enc₀) from rfl] at h
        obtain ⟨h1, h2⟩ := Prod.mk.injEq .. ▸ Except.ok.injEq .. ▸ h
        exact ⟨[], rest, by rw [← h1, ← h2]; rfl, fun a ha => absurd ha (List.not_mem_nil a)⟩
    | .unicodeError =>
      have hstep : read_csv_file ((enc₀, ReadOutcome.unicodeError) :: rest)
          = read_csv_file rest := rfl
      obtain ⟨ihiff, ihok⟩ := ih hclean'
      refine ⟨?_, ?_⟩
      · rw [hstep, ihiff]
        constructor
        · intro hall a ha
          rcases List.mem_cons.mp ha with rfl | ha'
          · rfl
          · exact hall a ha'
        · intro hall a ha
          exact hall a (List.mem_cons_of_mem _ ha)
      · intro df enc h
        rw [hstep] at h
        obtain ⟨pre, rest', heq, hpre⟩ := ihok df enc h
        refine ⟨(enc₀, ReadOutcome.unicodeError) :: pre, rest', by rw [heq]; rfl, ?_⟩
        intro a ha
        rcases List.mem_cons.mp ha with rfl | ha'
        · rfl
        · exact hpre a ha'
    | .otherError m =>
      have hm : m ≠ "Could not read file with any encoding" := by
        intro hmm
        exact hclean (enc₀, .otherError m) (List.mem_cons_self _ _) (by rw [hmm])
      refine ⟨⟨fun h => ?_, fun hall => ?_⟩, ?_⟩
      · rw [show read_csv_file ((enc₀, ReadOutcome.otherError m) :: rest)
            = .error m from rfl] at h
        exact absurd (Except.error.injEq .. ▸ h) hm
      · have := hall (enc₀, .otherError m) (List.mem_cons_self _ _)
        exact absurd this (by simp)
      · intro df enc h
        exact absurd h (by simp [read_csv_file])

/-- Witness for C9: with utf-8 raising a Unicode error and latin-1
parsing, the data comes back tagged latin-1, after utf-8 alone
failed. -/
theorem c9_encoding_fallback_witness :
    ∃ pre rest,
      [("utf-8", ReadOutcome.unicodeError),
       ("latin-1", ReadOutcome.ok [⟨[("a", some "1")]⟩]),
       ("cp1252", ReadOutcome.unicodeError)]
        = pre ++ ("latin-1", ReadOutcome.ok [⟨[("a", some "1")]⟩]) :: rest ∧
      ∀ a ∈ pre, a.2 = ReadOutcome.unicodeError :=
  (c9_encoding_fallback
    [("utf-8", ReadOutcome.unicodeError),
     ("latin-1", ReadOutcome.ok [⟨[("a", some "1")]⟩]),
     ("cp1252", ReadOutcome.unicodeError)] (by decide)).2
    [⟨[("a", some "1")]⟩] "latin-1" rfl

/-! ### Claim C5 — audit-log completeness -/

/-- Branch characterization of `importWrite`: either it fails and
appends no audit entry, or it succeeds and appends exactly one success
entry. -/
theorem importWrite_log_spec (e : ImportEnv) :
    ((importWrite e).1.success = false ∧ (importWrite e).2 = []) ∨
    ((importWrite e).1.success = true ∧ (importWrite e).2
      = [⟨"csv_import", importTableName e, (importWrite e).1.rows_imported, "success",
          "Imported from " ++ e.filename⟩]) := by
  rcases hr : read_csv_file e.read_attempts with er | ⟨df, enc⟩
  · left
    simp [importWrite, hr]
  · rcases hw : e.write_error with _ | we
    · right
      simp [importWrite, hr, hw]
    · left
      simp [importWrite, hr, hw]

/-- Branch characterization of `import_single_csv`: either it fails and
appends no audit entry, or it succeeds and appends exactly one success
entry. -/
theorem import_log_spec (e : ImportEnv) :
    ((import_single_csv e).1.success = false ∧ (import_single_csv e).2 = []) ∨
    ((import_single_csv e).1.success = true ∧ (import_single_csv e).2
      = [⟨"csv_import", importTableName e, (import_single_csv e).1.rows_imported, "success",
          "Imported from " ++ e.filename⟩]) := by
  by_cases hb : e.base_name = ""
  · left
    simp [import_single_csv, hb]
  · cases hex : e.table_exists with
    | false =>
      have hred : import_single_csv e = importWrite e := by
        unfold import_single_csv
        rw [if_neg hb, hex]
        simp
      rw [hred]
      exact importWrite_log_spec e
    | true =>
      rcases hcc : e.csv_cols_result with er | csv_cols
      · left
        simp [import_single_csv, hb, hex, hcc]
      · cases hm : (compare_columns e.table_cols csv_cols).1 with
        | false =>
          left
          rw [import_rejected_of_mismatch e csv_cols hb hex hcc hm]
          exact ⟨rfl, rfl⟩
        | true =>
          have hred : import_single_csv e = importWrite e := by
            unfold import_single_csv
            rw [if_neg hb, hex]
            simp [hcc, hm]
          rw [hred]
          exact importWrite_log_spec e

/-- Branch characterization of `process_single_table`: either it fails
and appends no audit entry, or it succeeds and appends exactly one
success entry. -/
theorem process_log_spec (env : StgEnv) :
    ((process_single_table env).success = false ∧ (process_single_table env).log = []) ∨
    ((process_single_table env).success = true ∧ (process_single_table env).log
      = [⟨"raw_to_stg", raw_to_stg_name env.raw_table_name,
          (process_single_table env).rows_inserted, "success",
          "From " ++ env.raw_table_name⟩]) := by
  have hmv : ((runMoveTable env).success = false ∧ (runMoveTable env).log = []) ∨
      ((runMoveTable env).success = true ∧ (runMoveTable env).log
        = [⟨"raw_to_stg", raw_to_stg_name env.raw_table_name,
            (runMoveTable env).rows_inserted, "success",
            "From " ++ env.raw_table_name⟩]) := by
    rcases hr : move_data_to_stg (stgBefore env) env.raw_rows env.key_columns
        env.data_columns with er | ⟨stg1, stats⟩
    · left
      simp [runMoveTable, hr]
    · right
      simp [runMoveTable, hr]
  by_cases h0 : env.raw_rows.length = 0
  · left
    simp [process_single_table, h0]
  · rcases hk : env.key_columns with _ | ⟨_ | ⟨k, ks⟩⟩
    · have hred : process_single_table env = runMoveTable env := by
        unfold process_single_table
        rw [if_neg h0, hk]
      rw [hred]
      exact hmv
    · have hred : process_single_table env = runMoveTable env := by
        unfold process_single_table
        rw [if_neg h0, hk]
      rw [hred]
      exact hmv
    · cases hie : ((k :: ks).filter fun key => !env.data_columns.contains key).isEmpty with
      | true =>
        have hred : process_single_table env = runMoveTable env := by
          unfold process_single_table
          rw [if_neg h0, hk]
          dsimp only
          rw [hie]
          simp
        rw [hred]
        exact hmv
      | false =>
        left
        have hred : process_single_table env
            = StgResult.mk env.raw_table_name (raw_to_stg_name env.raw_table_name) false 0
                (keyColumnsNotFoundMessage
                  ((k :: ks).filter fun key => !env.data_columns.contains key))
                (stgBefore env) [] := by
          unfold process_single_table
          rw [if_neg h0, hk]
          dsimp only
          rw [hie]
          simp
        rw [hred]
        exact ⟨rfl, rfl⟩

/-- C5 (counterexample): not every batch outcome is recorded in the
audit log.  A batch rejected for a column mismatch fails with the
mismatch message yet appends NO `_etl_log` entry — the scripts append a
log entry only on success. -/
theorem c5_counterexample :
    (import_single_csv ⟨"parts.csv", "parts", true, ["a", "b", "c"],
        .ok ["a", "b", "d"], [], none⟩).1.success = false ∧
    (import_single_csv ⟨"parts.csv", "parts", true, ["a", "b", "c"],
        .ok ["a", "b", "d"], [], none⟩).1.message = mismatchMessage ["c"] ["d"] ∧
    (import_single_csv ⟨"parts.csv", "parts", true, ["a", "b", "c"],
        .ok ["a", "b", "d"], [], none⟩).2 = [] := by
  refine ⟨rfl, ?_, rfl⟩
  rfl

/-- C5 (amended): only SUCCESSFUL batch outcomes are recorded in the
audit log.  Both `import_single_csv` and `process_single_table` append
exactly one success entry when the batch succeeds and none at all when
it fails (a failed batch is surfaced only through the returned result
and the console). -/
theorem c5_audit_logging_amended (ienv : ImportEnv) (senv : StgEnv) :
    ((import_single_csv ienv).1.success = false → (import_single_csv ienv).2 = []) ∧
    ((import_single_csv ienv).1.success = true → (import_single_csv ienv).2
      = [⟨"csv_import", importTableName ienv, (import_single_csv ienv).1.rows_imported,
          "success", "Imported from " ++ ienv.filename⟩]) ∧
    ((process_single_table senv).success = false → (process_single_table senv).log = []) ∧
    ((process_single_table senv).success = true → (process_single_table senv).log
      = [⟨"raw_to_stg", raw_to_stg_name senv.raw_table_name,
          (process_single_table senv).rows_inserted, "success",
          "From " ++ senv.raw_table_name⟩]) := by
  refine ⟨?_, ?_, ?_, ?_⟩
  · intro h
    rcases import_log_spec ienv with ⟨_, hl⟩ | ⟨ht, _⟩
    · exact hl
    · rw [ht] at h
      exact absurd h (by decide)
  · intro h
    rcases import_log_spec ienv with ⟨hf, _⟩ | ⟨_, hl⟩
    · rw [hf] at h
      exact absurd h (by decide)
    · exact hl
  · intro h
    rcases process_log_spec senv with ⟨_, hl⟩ | ⟨ht, _⟩
    · exact hl
    · rw [ht] at h
      exact absurd h (by decide)
  · intro h
    rcases process_log_spec senv with ⟨hf, _⟩ | ⟨_, hl⟩
    · rw [hf] at h
      exact absurd h (by decide)
    · exact hl

/-- Witness for the amended C5: a succeeding import appends exactly one
success entry, and the mismatching import appends none. -/
theorem c5_audit_logging_amended_witness :
    (import_single_csv ⟨"accounts.csv", "accounts", false, [], .ok [],
        [("utf-8", ReadOutcome.ok [⟨[("x", some "1")]⟩])], none⟩).2
      = [⟨"csv_import",
          importTableName ⟨"accounts.csv", "accounts", false, [], .ok [],
            [("utf-8", ReadOutcome.ok [⟨[("x", some "1")]⟩])], none⟩,
          (import_single_csv ⟨"accounts.csv", "accounts", false, [], .ok [],
            [("utf-8", ReadOutcome.ok [⟨[("x", some "1")]⟩])], none⟩).1.rows_imported,
          "success", "Imported from " ++ "accounts.csv"⟩] ∧
    (import_single_csv ⟨"parts.csv", "parts", true, ["a", "b", "c"],
        .ok ["a", "b", "d"], [], none⟩).2 = [] := by
  constructor
  · exact (c5_audit_logging_amended
      ⟨"accounts.csv", "accounts", false, [], .ok [],
        [("utf-8", ReadOutcome.ok [⟨[("x", some "1")]⟩])], none⟩
      ⟨"rawLoans", [], false, [], [], none⟩).2.1 rfl
  · exact (c5_audit_logging_amended
      ⟨"parts.csv", "parts", true, ["a", "b", "c"], .ok ["a", "b", "d"], [], none⟩
      ⟨"rawLoans", [], false, [], [], none⟩).1 rfl

/-! ### Claim C4 — run status contract -/

/-- C4 (code-bug evaluation): in a run where the first CSV is rejected
for a column mismatch and the second imports cleanly, both files are
processed (the failure does not abort its sibling) and
`csv_importer.main` computes overall success `false`; but the script's
`__main__` block discards that boolean, the process exits 0, and
`run_pipeline.run_step` therefore reports the import step — and hence
the pipeline — as successful, contradicting the claimed contract that
the pipeline as a whole reports failure. -/
theorem c4_run_status_divergence :
    (importRunResults
      [⟨"parts.csv", "parts", true, ["a", "b", "c"], .ok ["a", "b", "d"], [], none⟩,
       ⟨"accounts.csv", "accounts", false, [], .ok [],
         [("utf-8", ReadOutcome.ok [⟨[("x", some "1")]⟩])], none⟩]).map
      (fun r => r.success) = [false, true] ∧
    importMainSuccess
      [⟨"parts.csv", "parts", true, ["a", "b", "c"], .ok ["a", "b", "d"], [], none⟩,
       ⟨"accounts.csv", "accounts", false, [], .ok [],
         [("utf-8", ReadOutcome.ok [⟨[("x", some "1")]⟩])], none⟩] = false ∧
    csvImporterProcessExitCode
      [⟨"parts.csv", "parts", true, ["a", "b", "c"], .ok ["a", "b", "d"], [], none⟩,
       ⟨"accounts.csv", "accounts", false, [], .ok [],
         [("utf-8", ReadOutcome.ok [⟨[("x", some "1")]⟩])], none⟩] = 0 ∧
    run_stepSuccess
      (csvImporterProcessExitCode
        [⟨"parts.csv", "parts", true, ["a", "b", "c"], .ok ["a", "b", "d"], [], none⟩,
         ⟨"accounts.csv", "accounts", false, [], .ok [],
           [("utf-8", ReadOutcome.ok [⟨[("x", some "1")]⟩])], none⟩]) = true :=
  ⟨rfl, rfl, rfl, rfl⟩

/-! ### Claim C7 — aggregate rebuild consistency -/

theorem length_filter_add_length_filter_not {α : Type _} (l : List α) (p : α → Bool) :
    (l.filter p).length + (l.filter fun a => !(p a)).length = l.length := by
  induction l with
  | nil => rfl
  | cons a t ih =>
    cases hp : p a <;> simp [List.filter_cons, hp] <;> omega

/-- Summing the sizes of the groups of a list over a duplicate-free,
covering list of group keys recovers the length of the list. -/
theorem sum_group_counts {α κ : Type _} [DecidableEq κ] (f : α → κ) :
    ∀ (ks : List κ) (l : List α), ks.Pairwise (· ≠ ·) → (∀ a ∈ l, f a ∈ ks) →
      (ks.map fun k => (l.filter fun a => decide (f a = k)).length).sum = l.length := by
  intro ks
  induction ks with
  | nil =>
    intro l _ hcov
    cases l with
    | nil => rfl
    | cons a t => exact absurd (hcov a (List.mem_cons_self a t)) (List.not_mem_nil _)
  | cons k₀ ks ih =>
    intro l hpw hcov
    obtain ⟨hhead, htail⟩ := List.pairwise_cons.mp hpw
    have hlen := length_filter_add_length_filter_not l fun a => decide (f a = k₀)
    have hcnt : ∀ kk ∈ ks,
        (l.filter fun a => decide (f a = kk)).length
          = ((l.filter fun a => !(decide (f a = k₀))).filter
              fun a => decide (f a = kk)).length := by
      intro kk hkk
      have hkne : k₀ ≠ kk := hhead kk hkk
      congr 1
      rw [List.filter_filter]
      apply List.filter_congr
      intro a _
      by_cases hfa : f a = kk
      · have hnot : decide (f a = k₀) = false := by
          rw [decide_eq_false_iff_not]
          intro hh
          exact hkne (hh ▸ hfa)
        simp only [hfa, hnot]
        simp
        exact Ne.symm hkne
      · simp [hfa]
    have hcov₂ : ∀ a ∈ l.filter fun a => !(decide (f a = k₀)), f a ∈ ks := by
      intro a ha
      obtain ⟨hal, hpa⟩ := List.mem_filter.mp ha
      rcases List.mem_cons.mp (hcov a hal) with heq | hmem
      · exact absurd hpa (by simp [heq])
      · exact hmem
    rw [List.map_cons, List.sum_cons,
      List.map_congr_left hcnt, ih _ htail hcov₂]
    omega

/-- C7: rebuilding `rptAccountSummary` discards the prior contents
entirely (the result is the same whatever the old table held — a pure
function of the staging table), every resulting row is the summary of
one distinct `(account_type, currency, status)` group of
`stgAccountProducts` with `account_count` equal to the number of
staging rows in that group at the moment of rebuild, and the counts of
all summary rows add up to the full staging row count. -/
theorem c7_aggregate_rebuild (oldRpt : List AcctSummaryRow) (stg : List AcctRow) :
    rebuildAccountSummary oldRpt stg = create_account_summary stg ∧
    (∀ row ∈ create_account_summary stg,
      ∃ k, k ∈ distinct (stg.map acctKey) ∧ row = buildAcctSummaryRow stg k ∧
        row.account_count = (stg.filter fun r => decide (acctKey r = k)).length) ∧
    ((create_account_summary stg).map fun row => row.account_count).sum = stg.length := by
  refine ⟨rfl, ?_, ?_⟩
  · intro row hrow
    obtain ⟨k, hk, hkeq⟩ := List.mem_map.mp hrow
    exact ⟨k, hk, hkeq.symm, by rw [← hkeq]; rfl⟩
  · unfold create_account_summary
    rw [List.map_map]
    rw [show ((fun row : AcctSummaryRow => row.account_count) ∘ buildAcctSummaryRow stg)
        = fun k => (stg.filter fun r => decide (acctKey r = k)).length from rfl]
    exact sum_group_counts acctKey (distinct (stg.map acctKey)) stg
      (distinct_pairwise_ne _)
      fun a ha => mem_distinct (List.mem_map_of_mem acctKey ha)

/-- Witness for C7: rebuilding over a staging table with three rows in
two groups replaces a stale summary, the checking-group row counts
exactly its two staging rows, and the group counts add up to 3. -/
theorem c7_aggregate_rebuild_witness :
    rebuildAccountSummary [⟨"stale", "stale", "stale", 99, 0, (0, 1), 0, 0⟩]
        [⟨some "checking", some "USD", some "active", some 100⟩,
         ⟨some "checking", some "USD", some "active", some 50⟩,
         ⟨some "savings", some "USD", some "active", none⟩]
      = create_account_summary
        [⟨some "checking", some "USD", some "active", some 100⟩,
         ⟨some "checking", some "USD", some "active", some 50⟩,
         ⟨some "savings", some "USD", some "active", none⟩] ∧
    (∃ k, k ∈ distinct
        (([⟨some "checking", some "USD", some "active", some 100⟩,
           ⟨some "checking", some "USD", some "active", some 50⟩,
           ⟨some "savings", some "USD", some "active", none⟩] : List AcctRow).map acctKey) ∧
      (⟨"checking", "USD", "active", 2, 150, (150, 2), 50, 100⟩ : AcctSummaryRow)
        = buildAcctSummaryRow
          [⟨some "checking", some "USD", some "active", some 100⟩,
           ⟨some "checking", some "USD", some "active", some 50⟩,
           ⟨some "savings", some "USD", some "active", none⟩] k ∧
      (⟨"checking", "USD", "active", 2, 150, (150, 2), 50, 100⟩
          : AcctSummaryRow).account_count
        = (([⟨some "checking", some "USD", some "active", some 100⟩,
             ⟨some "checking", some "USD", some "active", some 50⟩,
             ⟨some "savings", some "USD", some "active", none⟩] : List AcctRow).filter
            fun r => decide (acctKey r = k)).length) ∧
    ((create_account_summary
        [⟨some "checking", some "USD", some "active", some 100⟩,
         ⟨some "checking", some "USD", some "active", some 50⟩,
         ⟨some "savings", some "USD", some "active", none⟩]).map
      fun row => row.account_count).sum = 3 := by
  have h := c7_aggregate_rebuild [⟨"stale", "stale", "stale", 99, 0, (0, 1), 0, 0⟩]
    [⟨some "checking", some "USD", some "active", some 100⟩,
     ⟨some "checking", some "USD", some "active", some 50⟩,
     ⟨some "savings", some "USD", some "active", none⟩]
  exact ⟨h.1, h.2.1 ⟨"checking", "USD", "active", 2, 150, (150, 2), 50, 100⟩ (by decide),
    h.2.2⟩


end ETL
